import Mathlib

/-!
Shallow embedding of the help rendering engine of
src/command/common/help_command.go and proofs about it.

Modelling conventions:
- Go maps (the built-in command catalog and the installed plugin catalog)
  are represented as association lists; one list models one iteration
  order of the map, and order independence is proved where claimed.
- The output sink (the command.UI collaborator) is modelled as a list of
  emitted events; each Display call site appends one event carrying the
  template string and the substitution arguments of that call.
- String lengths are modelled as character counts, which coincide with
  the Go byte lengths for the ASCII command names this code handles.
- Go int arithmetic that can go negative (the count handed to
  strings.Repeat) is modelled over Int, and strings.Repeat is modelled
  as an Option that is none exactly when Go would panic on a negative
  count.
-/

/-- FlagInfo mirrors the flag metadata consumed by the OPTIONS section. -/
structure FlagInfo where
  Short : String
  Long : String
  Description : String
deriving DecidableEq, Inhabited

/-- EnvVarInfo mirrors the environment variable metadata consumed by the
ENVIRONMENT section. -/
structure EnvVarInfo where
  Name : String
  DefaultValue : String
  Description : String
deriving DecidableEq, Inhabited

/-- CommandInfo mirrors sharedaction.CommandInfo as used by
help_command.go: name, description, usage template, alias, flags,
environment variables and related commands.  The Inhabited default is
the Go zero value (empty strings, empty lists). -/
structure CommandInfo where
  Name : String
  Description : String
  Usage : String
  Alias : String
  Flags : List FlagInfo
  Environment : List EnvVarInfo
  RelatedCommands : List String
deriving DecidableEq, Inhabited

/-- PluginCommand mirrors configv3.PluginCommand as far as the help
command consumes it: a name, a one line help text, and the optional
alias and flag fields used when a plugin command is rendered on the
detail page. -/
structure PluginCommand where
  Name : String
  HelpText : String
  Alias : String
  Flags : List FlagInfo
deriving DecidableEq, Inhabited

/-- PluginConfig mirrors configv3.Plugin as consumed here: the ordered
command list owned by one installed plugin.  The plugin name is the key
of the enclosing association list. -/
structure PluginConfig where
  Commands : List PluginCommand
deriving DecidableEq, Inhabited

/-- Category mirrors internal.HelpCategory: a header plus rows of
command identifiers, where each row is rendered as one visual row. -/
structure Category where
  CategoryName : String
  CommandList : List (List String)
deriving DecidableEq, Inhabited

/-- StoreErr models the error values the Metadata Store lookup can
return: ErrorInvalidCommand (the not found kind, carrying the command
name) or any other error (carrying its message). -/
inductive StoreErr where
  | invalidCommand (commandName : String)
  | other (message : String)
deriving DecidableEq

/-- UIEvent models one call to the output sink: a header line, a text
line carrying the template string and its named substitution arguments,
a blank line, or a left aligned table with its indent and minimum gap. -/
inductive UIEvent where
  | header (s : String)
  | text (template : String) (args : List (String × String))
  | newline
  | table (indent : String) (rows : List (List String)) (gap : Nat)
deriving DecidableEq

/-- The two space indent used by the common commands summary. -/
def commonCommandsIndent : String := "  "

/-- The three space indent used by the full listing. -/
def allCommandsIndent : String := "   "

/-- The three space indent used by the single command detail page. -/
def commandIndent : String := "   "

/-- Association list lookup modelling Go map access with the comma ok
form: the value stored under the first matching key, if any. -/
def lookupCI (cmdInfos : List (String × CommandInfo)) (name : String) : Option CommandInfo :=
  (cmdInfos.find? (fun p => p.1 == name)).map Prod.snd

/-- charsLe is the ordinal (byte wise) less or equal comparison on
strings viewed as their character lists; on valid UTF-8 this order
coincides with the byte wise comparison Go performs on strings. -/
def charsLe : List Char → List Char → Bool
  | [], _ => true
  | _ :: _, [] => false
  | a :: as, b :: bs => if a < b then true else if b < a then false else charsLe as bs

/-- Modelled from the spec: the package code.cloudfoundry.org/cli/util/sorting
(sorting.Alphabetic) is not under src/; the spec fixes its comparison as
alphabetic with case sensitive, ordinal byte wise comparison, which is
the relation below. -/
def stringOrdLeRel (a b : String) : Prop := charsLe a.data b.data = true

instance : DecidableRel stringOrdLeRel := fun a b =>
  instDecidableEqBool (charsLe a.data b.data) true

/-- Modelled from the spec: the sort.Interface implementation of
configv3.PluginCommands is not under src/; the spec fixes it as sorting
commands alphabetically by command name with the same ordinal
comparison. -/
def pluginCmdLeRel (a b : PluginCommand) : Prop := stringOrdLeRel a.Name b.Name

instance : DecidableRel pluginCmdLeRel := fun a b =>
  instDecidableEqBool (charsLe a.Name.data b.Name.data) true

/-- Spaces of the given length, the result of strings.Repeat with a
nonnegative count. -/
def spaces (n : Nat) : String := String.mk (List.replicate n (' '))

/-- goRepeatSpaces models strings.Repeat applied to a single space with
a Go int count: none models the panic Go raises on a negative count. -/
def goRepeatSpaces (count : Int) : Option String :=
  if count < 0 then none else some (spaces count.toNat)

/-- commonPluginTable embeds the three column wrap layout of
displayCommonCommands (help_command.go lines 183 to 193): size is the
ceiling of n over 3 (math.Ceil over float64 agrees with the integer
ceiling division for every slice length), and cell i j is the plugin
command name at index i + j * size when that index is in range, else
the empty string the Go table was initialised with. -/
def commonPluginTable (pluginCommands : List PluginCommand) : List (List String) :=
  let size := (pluginCommands.length + 2) / 3
  (List.range size).map (fun i =>
    (List.range 3).map (fun j =>
      if i + j * size < pluginCommands.length then
        (pluginCommands.getD (i + j * size) default).Name
      else ("")))

/-- Plugin commands named a to e used to check the documented five name
layout example. -/
def c1ExampleCmds : List PluginCommand :=
  [{ Name := "a", HelpText := "", Alias := "", Flags := [] },
   { Name := "b", HelpText := "", Alias := "", Flags := [] },
   { Name := "c", HelpText := "", Alias := "", Flags := [] },
   { Name := "d", HelpText := "", Alias := "", Flags := [] },
   { Name := "e", HelpText := "", Alias := "", Flags := [] }]

/-- Reading a mapped range at an index below the bound yields the
function applied to the index. -/
theorem getD_range_map {α : Type} (n : Nat) (f : Nat → α) (i : Nat) (d : α) (h : i < n) :
    ((List.range n).map f).getD i d = f i := by
  rw [List.getD_eq_getElem?_getD, List.getElem?_eq_getElem (by simpa using h)]
  simp

/-- Reading the name projection of a list at an in range index agrees
with projecting the element read with the zero value default. -/
theorem map_name_getD (pcs : List PluginCommand) (idx : Nat) (h : idx < pcs.length) :
    (pcs.map PluginCommand.Name).getD idx ("") = (pcs.getD idx default).Name := by
  rw [List.getD_eq_getElem?_getD, List.getElem?_eq_getElem (by simpa using h)]
  rw [List.getD_eq_getElem?_getD, List.getElem?_eq_getElem h]
  simp

/-- Claim C1: for every flat ordered sequence of N plugin command names
the three column wrap layout builds a table of exactly the ceiling of N
over 3 rows (the stated bounds characterise that ceiling) and 3
columns, cell i j equals the name at index i + j * rows when that index
is below N and the empty string otherwise, and every index below N is
hit by exactly one cell, which is the column major fill. -/
theorem commonPluginTable_layout (pcs : List PluginCommand) :
    (commonPluginTable pcs).length = (pcs.length + 2) / 3
    ∧ (pcs.length ≤ 3 * ((pcs.length + 2) / 3)
        ∧ 3 * ((pcs.length + 2) / 3) < pcs.length + 3)
    ∧ (∀ r ∈ commonPluginTable pcs, r.length = 3)
    ∧ (∀ i j, i < (pcs.length + 2) / 3 → j < 3 →
        ((commonPluginTable pcs).getD i []).getD j ("") =
          (if i + j * ((pcs.length + 2) / 3) < pcs.length then
            (pcs.map PluginCommand.Name).getD (i + j * ((pcs.length + 2) / 3)) ("")
          else ("")))
    ∧ (∀ k, k < pcs.length →
        ∃! p : Nat × Nat,
          p.1 < (pcs.length + 2) / 3 ∧ p.2 < 3
            ∧ p.1 + p.2 * ((pcs.length + 2) / 3) = k) := by
  refine ⟨?_, ⟨by omega, by omega⟩, ?_, ?_, ?_⟩
  · simp [commonPluginTable]
  · intro r hr
    simp only [commonPluginTable, List.mem_map, List.mem_range] at hr
    obtain ⟨i, _, rfl⟩ := hr
    simp
  · intro i j hi hj
    have hrow : (commonPluginTable pcs).getD i [] =
        (List.range 3).map (fun j =>
          if i + j * ((pcs.length + 2) / 3) < pcs.length then
            (pcs.getD (i + j * ((pcs.length + 2) / 3)) default).Name
          else ("")) := by
      simp only [commonPluginTable]
      exact getD_range_map _ _ i [] hi
    rw [hrow, getD_range_map 3 _ j ("") hj]
    by_cases hidx : i + j * ((pcs.length + 2) / 3) < pcs.length
    · rw [if_pos hidx, if_pos hidx, map_name_getD pcs _ hidx]
    · rw [if_neg hidx, if_neg hidx]
  · intro k hk
    have hrows : 0 < (pcs.length + 2) / 3 := by omega
    refine ⟨⟨k % ((pcs.length + 2) / 3), k / ((pcs.length + 2) / 3)⟩, ⟨?_, ?_, ?_⟩, ?_⟩
    · exact Nat.mod_lt _ hrows
    · have h3 : k < 3 * ((pcs.length + 2) / 3) := by omega
      exact Nat.div_lt_of_lt_mul (by omega)
    · show k % ((pcs.length + 2) / 3)
          + k / ((pcs.length + 2) / 3) * ((pcs.length + 2) / 3) = k
      rw [Nat.mul_comm]
      exact Nat.mod_add_div k _
    · rintro ⟨i, j⟩ ⟨hi, hj, hij⟩
      have hmod : (i + j * ((pcs.length + 2) / 3)) % ((pcs.length + 2) / 3) = i := by
        rw [Nat.add_mul_mod_self_right]
        exact Nat.mod_eq_of_lt hi
      have hdiv : (i + j * ((pcs.length + 2) / 3)) / ((pcs.length + 2) / 3) = j := by
        rw [Nat.add_mul_div_right _ _ hrows]
        rw [Nat.div_eq_of_lt hi]
        omega
      refine Prod.ext ?_ ?_
      · simpa [hij] using hmod.symm
      · simpa [hij] using hdiv.symm

/-- Witness for claim C1 at the documented example: five names a to e
yield the two rows a c e and b d blank. -/
theorem commonPluginTable_layout_witness :
    commonPluginTable c1ExampleCmds = [["a", "c", "e"], ["b", "d", ""]]
    ∧ (∀ r ∈ commonPluginTable c1ExampleCmds, r.length = 3) :=
  ⟨by decide, (commonPluginTable_layout c1ExampleCmds).2.2.1⟩

/-- Head comparison characterisation of the ordinal order on character
lists. -/
theorem charsLe_cons (a b : Char) (as bs : List Char) :
    charsLe (a :: as) (b :: bs) = true ↔ (a < b ∨ (a = b ∧ charsLe as bs = true)) := by
  by_cases h1 : a < b
  · simp [charsLe, h1]
  · by_cases h2 : b < a
    · have hne : a ≠ b := (ne_of_lt h2).symm
      simp [charsLe, h1, h2, hne]
    · have hab : a = b := le_antisymm (not_lt.mp h2) (not_lt.mp h1)
      subst hab
      simp [charsLe, lt_irrefl]

/-- Totality of the ordinal order on character lists. -/
theorem charsLe_total (as : List Char) : ∀ bs, charsLe as bs = true ∨ charsLe bs as = true := by
  induction as with
  | nil => intro bs; left; rfl
  | cons a as ih =>
    intro bs
    cases bs with
    | nil => right; rfl
    | cons b bs =>
      by_cases h1 : a < b
      · left
        rw [charsLe_cons]
        exact Or.inl h1
      · by_cases h2 : b < a
        · right
          rw [charsLe_cons]
          exact Or.inl h2
        · have hab : a = b := le_antisymm (not_lt.mp h2) (not_lt.mp h1)
          subst hab
          rcases ih bs with h | h
          · left
            rw [charsLe_cons]
            exact Or.inr ⟨rfl, h⟩
          · right
            rw [charsLe_cons]
            exact Or.inr ⟨rfl, h⟩

/-- Transitivity of the ordinal order on character lists. -/
theorem charsLe_trans (as : List Char) :
    ∀ bs cs, charsLe as bs = true → charsLe bs cs = true → charsLe as cs = true := by
  induction as with
  | nil => intro bs cs _ _; rfl
  | cons a as ih =>
    intro bs cs h1 h2
    cases bs with
    | nil => simp [charsLe] at h1
    | cons b bs =>
      cases cs with
      | nil => simp [charsLe] at h2
      | cons c cs =>
        rw [charsLe_cons] at h1 h2 ⊢
        rcases h1 with h1 | ⟨rfl, h1⟩
        · rcases h2 with h2 | ⟨rfl, h2⟩
          · exact Or.inl (lt_trans h1 h2)
          · exact Or.inl h1
        · rcases h2 with h2 | ⟨rfl, h2⟩
          · exact Or.inl h2
          · exact Or.inr ⟨rfl, ih bs cs h1 h2⟩

/-- Antisymmetry of the ordinal order on character lists. -/
theorem charsLe_antisymm (as : List Char) :
    ∀ bs, charsLe as bs = true → charsLe bs as = true → as = bs := by
  induction as with
  | nil =>
    intro bs _ h2
    cases bs with
    | nil => rfl
    | cons b bs => simp [charsLe] at h2
  | cons a as ih =>
    intro bs h1 h2
    cases bs with
    | nil => simp [charsLe] at h1
    | cons b bs =>
      rw [charsLe_cons] at h1 h2
      rcases h1 with h1 | ⟨rfl, h1⟩
      · rcases h2 with h2 | ⟨hba, _⟩
        · exact absurd h2 (lt_asymm h1)
        · exact absurd h1 (by simp [hba])
      · rcases h2 with h2 | ⟨_, h2⟩
        · exact absurd h2 (lt_irrefl a)
        · rw [ih bs h1 h2]

instance : IsTotal String stringOrdLeRel :=
  ⟨fun a b => charsLe_total a.data b.data⟩

instance : IsTrans String stringOrdLeRel :=
  ⟨fun a b c => charsLe_trans a.data b.data c.data⟩

instance : IsAntisymm String stringOrdLeRel :=
  ⟨fun a b h1 h2 => by
    cases a with
    | mk da =>
      cases b with
      | mk db => exact congrArg String.mk (charsLe_antisymm da db h1 h2)⟩

/-- Go map read plugins pluginName: the config stored under the name,
or the zero value PluginConfig when the name is absent. -/
def lookupPlugin (plugins : List (String × PluginConfig)) (name : String) : PluginConfig :=
  ((plugins.find? (fun p => p.1 == name)).map Prod.snd).getD ⟨[]⟩

/-- getSortedPluginCommands embeds help_command.go lines 319 to 336:
collect the plugin names, sort them with the alphabetic ordinal order,
and for each name in that order append the commands of that plugin
sorted by command name. -/
def getSortedPluginCommands (plugins : List (String × PluginConfig)) : List PluginCommand :=
  (List.insertionSort stringOrdLeRel (plugins.map Prod.fst)).flatMap
    (fun pluginName => List.insertionSort pluginCmdLeRel (lookupPlugin plugins pluginName).Commands)

/-- Association list find is stable under permutation of the entries
when the keys are distinct. -/
theorem find?_perm_nodupkeys {β : Type} {name : String} {ps qs : List (String × β)}
    (h : ps.Perm qs) :
    (ps.map Prod.fst).Nodup →
      ps.find? (fun p => p.1 == name) = qs.find? (fun p => p.1 == name) := by
  induction h with
  | nil => intro _; rfl
  | cons x h ih =>
    intro hnd
    rw [List.find?_cons, List.find?_cons]
    cases hx : (x.1 == name)
    · exact ih (by simpa using (List.nodup_cons.mp (by simpa using hnd)).2)
    · rfl
  | swap x y l =>
    intro hnd
    rw [List.find?_cons, List.find?_cons, List.find?_cons, List.find?_cons]
    have hnd2 : (y.1 :: x.1 :: (l.map Prod.fst)).Nodup := by simpa using hnd
    have hxy : y.1 ≠ x.1 := by
      intro he
      exact (List.nodup_cons.mp hnd2).1 (by simp [he])
    cases hx : (x.1 == name) <;> cases hy : (y.1 == name) <;> simp [hx, hy]
    exact absurd ((eq_of_beq hy).trans (eq_of_beq hx).symm) hxy
  | trans h1 h2 ih1 ih2 =>
    intro hnd
    exact (ih1 hnd).trans (ih2 ((h1.map Prod.fst).nodup_iff.mp hnd))

/-- Claim C2: for plugin catalogs with distinct plugin names the two
level sorted flattening is independent of the iteration order of the
underlying unordered mapping. -/
theorem getSortedPluginCommands_order_independent
    (ps qs : List (String × PluginConfig))
    (hnd : (ps.map Prod.fst).Nodup) (hperm : ps.Perm qs) :
    getSortedPluginCommands ps = getSortedPluginCommands qs := by
  have hkeys : List.insertionSort stringOrdLeRel (ps.map Prod.fst)
      = List.insertionSort stringOrdLeRel (qs.map Prod.fst) :=
    List.eq_of_perm_of_sorted
      ((List.perm_insertionSort stringOrdLeRel (ps.map Prod.fst)).trans
        ((hperm.map Prod.fst).trans
          (List.perm_insertionSort stringOrdLeRel (qs.map Prod.fst)).symm))
      (List.sorted_insertionSort stringOrdLeRel (ps.map Prod.fst))
      (List.sorted_insertionSort stringOrdLeRel (qs.map Prod.fst))
  have hfun : (fun pluginName =>
        List.insertionSort pluginCmdLeRel (lookupPlugin ps pluginName).Commands)
      = (fun pluginName =>
        List.insertionSort pluginCmdLeRel (lookupPlugin qs pluginName).Commands) := by
    funext n
    unfold lookupPlugin
    rw [find?_perm_nodupkeys hperm hnd]
  unfold getSortedPluginCommands
  rw [hkeys, hfun]

/-- The documented C2 example in one iteration order: zeta before
alpha. -/
def c2PluginsA : List (String × PluginConfig) :=
  [("zeta", ⟨[⟨"B", "", "", []⟩, ⟨"A", "", "", []⟩]⟩),
   ("alpha", ⟨[⟨"D", "", "", []⟩, ⟨"C", "", "", []⟩]⟩)]

/-- The documented C2 example in the other iteration order: alpha
before zeta. -/
def c2PluginsB : List (String × PluginConfig) :=
  [("alpha", ⟨[⟨"D", "", "", []⟩, ⟨"C", "", "", []⟩]⟩),
   ("zeta", ⟨[⟨"B", "", "", []⟩, ⟨"A", "", "", []⟩]⟩)]

/-- Witness for claim C2: both iteration orders of the documented
example flatten to alpha C, alpha D, zeta A, zeta B. -/
theorem getSortedPluginCommands_order_independent_witness :
    getSortedPluginCommands c2PluginsA = getSortedPluginCommands c2PluginsB
    ∧ getSortedPluginCommands c2PluginsA =
        [⟨"C", "", "", []⟩, ⟨"D", "", "", []⟩, ⟨"A", "", "", []⟩, ⟨"B", "", "", []⟩] :=
  ⟨getSortedPluginCommands_order_independent c2PluginsA c2PluginsB (by decide) (by decide),
   by decide⟩

/-- formatFlagName embeds the flag name formatting of displayCommand
(help_command.go lines 249 to 256): both forms give a double dash long
name, a comma and the short form; otherwise the single present form. -/
def formatFlagName (flag : FlagInfo) : String :=
  if flag.Short ≠ "" ∧ flag.Long ≠ "" then "--" ++ flag.Long ++ ", -" ++ flag.Short
  else if flag.Short ≠ "" then "-" ++ flag.Short
  else "--" ++ flag.Long

/-- Modelled from the spec: internal.LongestFlagWidth is not under
src/; the spec fixes it as the longest formatted flag name across the
command. -/
def LongestFlagWidth (flags : List FlagInfo) : Nat :=
  (flags.map (fun f => (formatFlagName f).length)).foldr max 0

/-- Modelled from the spec: internal.ConvertPluginToCommandInfo is not
under src/; the spec fixes the conversion as mapping HelpText to the
description and carrying the optional alias and flag fields, with no
environment or related commands. -/
def ConvertPluginToCommandInfo (c : PluginCommand) : CommandInfo :=
  { Name := c.Name, Description := c.HelpText, Usage := "", Alias := c.Alias,
    Flags := c.Flags, Environment := [], RelatedCommands := [] }

/-- findPlugin embeds help_command.go lines 307 to 317: scan every
plugin config in iteration order and return the first plugin command
whose name equals the requested one, converted to CommandInfo. -/
def findPlugin (plugins : List (String × PluginConfig)) (commandName : String) :
    Option CommandInfo :=
  ((plugins.flatMap (fun p => p.2.Commands)).find? (fun c => c.Name == commandName)).map
    ConvertPluginToCommandInfo

/-- padEnvToken models the fmt.Sprintf left justification to a fixed 29
character field: longer tokens are kept unpadded, never truncated. -/
def padEnvToken (tok : String) : String := tok ++ spaces (29 - tok.length)

/-- detailHead embeds the unconditional NAME and USAGE part of
displayCommand (help_command.go lines 220 to 233), with the binary name
substituted for every CF_NAME occurrence of the usage template. -/
def detailHead (info : CommandInfo) (binaryName : String) (tr : String → String) :
    List UIEvent :=
  [UIEvent.text ("NAME:") [],
   UIEvent.text (commandIndent ++ "\x7b\x7b.CommandName\x7d\x7d - \x7b\x7b.CommandDescription\x7d\x7d")
     [("CommandName", info.Name), ("CommandDescription", tr info.Description)],
   UIEvent.newline,
   UIEvent.text ("USAGE:") [],
   UIEvent.text (commandIndent ++ "\x7b\x7b.CommandUsage\x7d\x7d")
     [("CommandUsage", tr ((info.Usage).replace ("CF_NAME") binaryName))]]

/-- detailAliasSection embeds help_command.go lines 235 to 242. -/
def detailAliasSection (info : CommandInfo) : List UIEvent :=
  if info.Alias ≠ "" then
    [UIEvent.newline, UIEvent.text ("ALIAS:") [],
     UIEvent.text (commandIndent ++ "\x7b\x7b.Alias\x7d\x7d") [("Alias", info.Alias)]]
  else []

/-- detailOptionsSection embeds help_command.go lines 244 to 265: one
line per flag, padded to the shared longest formatted flag name plus
six.  The padding count is a Go int, but it is at least six because the
shared width maximises over the very names being padded, so the Nat
subtraction below agrees with the Go arithmetic. -/
def detailOptionsSection (info : CommandInfo) (tr : String → String) : List UIEvent :=
  if info.Flags ≠ [] then
    [UIEvent.newline, UIEvent.text ("OPTIONS:") []]
    ++ info.Flags.map (fun flag =>
        UIEvent.text
          (commandIndent ++ "\x7b\x7b.Flags\x7d\x7d\x7b\x7b.Spaces\x7d\x7d\x7b\x7b.Description\x7d\x7d")
          [("Flags", formatFlagName flag),
           ("Spaces", spaces (LongestFlagWidth info.Flags + 6 - (formatFlagName flag).length)),
           ("Description", tr flag.Description)])
  else []

/-- detailEnvSection embeds help_command.go lines 267 to 277. -/
def detailEnvSection (info : CommandInfo) (tr : String → String) : List UIEvent :=
  if info.Environment ≠ [] then
    [UIEvent.newline, UIEvent.text ("ENVIRONMENT:") []]
    ++ info.Environment.map (fun envVar =>
        UIEvent.text (commandIndent ++ "\x7b\x7b.EnvVar\x7d\x7d\x7b\x7b.Description\x7d\x7d")
          [("EnvVar", padEnvToken (envVar.Name ++ "=" ++ envVar.DefaultValue)),
           ("Description", tr envVar.Description)])
  else []

/-- detailSeeAlsoSection embeds help_command.go lines 279 to 283. -/
def detailSeeAlsoSection (info : CommandInfo) : List UIEvent :=
  if info.RelatedCommands ≠ [] then
    [UIEvent.newline, UIEvent.text ("SEE ALSO:") [],
     UIEvent.text (commandIndent ++ String.intercalate (", ") info.RelatedCommands) []]
  else []

/-- renderCommandDetail is the straight line emission part of
displayCommand once a CommandInfo has been resolved (help_command.go
lines 220 to 283), in source order. -/
def renderCommandDetail (info : CommandInfo) (binaryName : String) (tr : String → String) :
    List UIEvent :=
  detailHead info binaryName tr ++ detailAliasSection info ++ detailOptionsSection info tr
    ++ detailEnvSection info tr ++ detailSeeAlsoSection info

/-- displayCommand embeds help_command.go lines 207 to 286: resolve the
name against the Metadata Store lookup, fall back to the plugin scan
only on the ErrorInvalidCommand kind, return any other error unchanged,
and emit the detail page only after resolution succeeded.  The first
component is the returned error, the second the emitted output. -/
def displayCommand (lookupByName : String → Except StoreErr CommandInfo)
    (plugins : List (String × PluginConfig)) (commandName binaryName : String)
    (tr : String → String) : Option StoreErr × List UIEvent :=
  match lookupByName commandName with
  | Except.ok info => (none, renderCommandDetail info binaryName tr)
  | Except.error (StoreErr.invalidCommand s) =>
    match findPlugin plugins commandName with
    | some info => (none, renderCommandDetail info binaryName tr)
    | none => (some (StoreErr.invalidCommand s), [])
  | Except.error (StoreErr.other m) => (some (StoreErr.other m), [])

/-- Claim C3: when the Metadata Store lookup succeeds, the detail page
resolution returns the built in entry no matter what the plugin catalog
holds, even when some plugin offers a command of the same name; the
plugin scan is never consulted on the success path. -/
theorem displayCommand_builtin_wins
    (lookupByName : String → Except StoreErr CommandInfo)
    (plugins : List (String × PluginConfig)) (commandName binaryName : String)
    (tr : String → String) (info : CommandInfo)
    (hstore : lookupByName commandName = Except.ok info)
    (hplug : (findPlugin plugins commandName).isSome = true) :
    displayCommand lookupByName plugins commandName binaryName tr
      = (none, renderCommandDetail info binaryName tr) := by
  unfold displayCommand
  rw [hstore]

/-- Built in push entry used by the C3 witness. -/
def c3Builtin : CommandInfo :=
  { Name := "push", Description := "Push an app", Usage := "CF_NAME push",
    Alias := "p", Flags := [], Environment := [], RelatedCommands := [] }

/-- Metadata Store lookup used by the C3 witness: it knows exactly the
push command. -/
def c3Store : String → Except StoreErr CommandInfo := fun name =>
  if name == "push" then Except.ok c3Builtin
  else Except.error (StoreErr.invalidCommand name)

/-- Plugin catalog used by the C3 witness: one plugin shadowing push. -/
def c3Plugins : List (String × PluginConfig) :=
  [("shadow", ⟨[⟨"push", "plugin push", "", []⟩]⟩)]

/-- Witness for claim C3: with a plugin offering push as well, the
detail page still renders the built in push entry. -/
theorem displayCommand_builtin_wins_witness :
    displayCommand c3Store c3Plugins ("push") ("cf") id
      = (none, renderCommandDetail c3Builtin ("cf") id) :=
  displayCommand_builtin_wins c3Store c3Plugins ("push") ("cf") id c3Builtin (by rfl) (by rfl)

/-- Claim C6: when the name is found neither by the Metadata Store
lookup (ErrorInvalidCommand) nor by the plugin scan, displayCommand
returns the unknown command error and emits not a single event, so no
partial detail page precedes the failure. -/
theorem displayCommand_unknown_no_output
    (lookupByName : String → Except StoreErr CommandInfo)
    (plugins : List (String × PluginConfig)) (commandName binaryName : String)
    (tr : String → String) (s : String)
    (hstore : lookupByName commandName = Except.error (StoreErr.invalidCommand s))
    (hplug : findPlugin plugins commandName = none) :
    displayCommand lookupByName plugins commandName binaryName tr
      = (some (StoreErr.invalidCommand s), []) := by
  unfold displayCommand
  rw [hstore, hplug]

/-- Metadata Store lookup used by the C6 witness: it knows nothing. -/
def c6Store : String → Except StoreErr CommandInfo := fun name =>
  Except.error (StoreErr.invalidCommand name)

/-- Witness for claim C6: an unknown name against an empty store and no
plugins yields the invalid command error and an empty event list. -/
theorem displayCommand_unknown_no_output_witness :
    displayCommand c6Store [] ("nope") ("cf") id
      = (some (StoreErr.invalidCommand ("nope")), []) :=
  displayCommand_unknown_no_output c6Store [] ("nope") ("cf") id ("nope") (by rfl) (by rfl)

/-- Claim C7: an error of any kind other than ErrorInvalidCommand from
the Metadata Store lookup is returned unchanged, no plugin fallback is
attempted (the result does not depend on the plugin catalog at all),
and nothing is emitted. -/
theorem displayCommand_propagates_other_errors
    (lookupByName : String → Except StoreErr CommandInfo)
    (commandName binaryName : String) (tr : String → String) (m : String)
    (hstore : lookupByName commandName = Except.error (StoreErr.other m)) :
    ∀ plugins : List (String × PluginConfig),
      displayCommand lookupByName plugins commandName binaryName tr
        = (some (StoreErr.other m), []) := by
  intro plugins
  unfold displayCommand
  rw [hstore]

/-- Metadata Store lookup used by the C7 witness: every lookup fails
with a malformed catalog error. -/
def c7Store : String → Except StoreErr CommandInfo := fun _ =>
  Except.error (StoreErr.other ("malformed catalog"))

/-- Witness for claim C7: the malformed catalog error is passed through
unchanged with no output, also with a plugin that knows the name. -/
theorem displayCommand_propagates_other_errors_witness :
    displayCommand c7Store [("p", ⟨[⟨"target", "t", "", []⟩]⟩)] ("target") ("cf") id
      = (some (StoreErr.other ("malformed catalog")), []) :=
  displayCommand_propagates_other_errors c7Store ("target") ("cf") id
    ("malformed catalog") (by rfl) [("p", ⟨[⟨"target", "t", "", []⟩]⟩)]

/-- The six section title lines the detail page can emit. -/
def sectionTitleList : List String :=
  ["NAME:", "USAGE:", "ALIAS:", "OPTIONS:", "ENVIRONMENT:", "SEE ALSO:"]

/-- isTitleEvent recognises a section title line: a plain text event
without substitution arguments whose template is one of the six
titles. -/
def isTitleEvent (e : UIEvent) : Option String :=
  match e with
  | UIEvent.text s [] => if s ∈ sectionTitleList then some s else none
  | _ => none

/-- isNewlineEvent recognises a blank line event. -/
def isNewlineEvent (e : UIEvent) : Bool :=
  match e with
  | UIEvent.newline => true
  | _ => false

/-- sectionTitles projects an event list to the section title lines it
contains, in emission order. -/
def sectionTitles (events : List UIEvent) : List String :=
  events.filterMap isTitleEvent

/-- countNewlines counts the blank line events of an event list. -/
def countNewlines (events : List UIEvent) : Nat :=
  events.countP isNewlineEvent

/-- A mapped block none of whose events is a title line contributes no
section titles. -/
theorem filterMap_isTitle_map_nil {α : Type} (f : α → UIEvent) (l : List α)
    (h : ∀ a ∈ l, isTitleEvent (f a) = none) : (l.map f).filterMap isTitleEvent = [] := by
  induction l with
  | nil => rfl
  | cons a t ih =>
    rw [List.map_cons, List.filterMap_cons, h a (by simp)]
    exact ih (fun b hb => h b (by simp [hb]))

/-- A mapped block none of whose events is a blank line contributes no
newline count. -/
theorem countP_isNewline_map_zero {α : Type} (f : α → UIEvent) (l : List α)
    (h : ∀ a ∈ l, isNewlineEvent (f a) = false) : (l.map f).countP isNewlineEvent = 0 := by
  rw [List.countP_eq_zero]
  intro e he
  rw [List.mem_map] at he
  obtain ⟨a, ha, rfl⟩ := he
  simp [h a ha]

/-- A line starting with the detail indent is never a section title. -/
theorem commandIndent_append_not_title (x : String) :
    ¬ ((commandIndent ++ x) ∈ sectionTitleList) := by
  intro h
  have hd : (commandIndent ++ x).data.take 3 = [' ', ' ', ' '] := by
    rw [String.data_append]
    have h3 : commandIndent.data = [' ', ' ', ' '] := by decide
    rw [h3]
    exact List.take_left ([' ', ' ', ' ']) x.data
  simp only [sectionTitleList, List.mem_cons, List.not_mem_nil, or_false] at h
  rcases h with h | h | h | h | h | h <;> rw [h] at hd <;> exact absurd hd (by decide)

/-- The unconditional head contributes the NAME and USAGE titles and
one blank line. -/
theorem sectionTitles_detailHead (info : CommandInfo) (binaryName : String)
    (tr : String → String) :
    sectionTitles (detailHead info binaryName tr) = ["NAME:", "USAGE:"]
    ∧ countNewlines (detailHead info binaryName tr) = 1 := by
  constructor
  · rfl
  · rfl

/-- The alias section contributes its title and one blank line exactly
when the alias is non empty. -/
theorem sectionTitles_detailAliasSection (info : CommandInfo) :
    sectionTitles (detailAliasSection info)
      = (if info.Alias ≠ "" then ["ALIAS:"] else [])
    ∧ countNewlines (detailAliasSection info)
      = (if info.Alias ≠ "" then 1 else 0) := by
  unfold detailAliasSection
  by_cases h : info.Alias ≠ ""
  · rw [if_pos h, if_pos h, if_pos h]
    exact ⟨rfl, rfl⟩
  · rw [if_neg h, if_neg h, if_neg h]
    exact ⟨rfl, rfl⟩

/-- The options section contributes its title and one blank line
exactly when the flag list is non empty; the per flag lines carry
substitution arguments and are never titles. -/
theorem sectionTitles_detailOptionsSection (info : CommandInfo) (tr : String → String) :
    sectionTitles (detailOptionsSection info tr)
      = (if info.Flags ≠ [] then ["OPTIONS:"] else [])
    ∧ countNewlines (detailOptionsSection info tr)
      = (if info.Flags ≠ [] then 1 else 0) := by
  unfold detailOptionsSection
  by_cases h : info.Flags ≠ []
  · rw [if_pos h, if_pos h, if_pos h]
    constructor
    · unfold sectionTitles
      rw [List.filterMap_append, filterMap_isTitle_map_nil]
      · rfl
      · intro flag _
        rfl
    · unfold countNewlines
      rw [List.countP_append, countP_isNewline_map_zero]
      · rfl
      · intro flag _
        rfl
  · rw [if_neg h, if_neg h, if_neg h]
    exact ⟨rfl, rfl⟩

/-- The environment section contributes its title and one blank line
exactly when the environment list is non empty; the per variable lines
carry substitution arguments and are never titles. -/
theorem sectionTitles_detailEnvSection (info : CommandInfo) (tr : String → String) :
    sectionTitles (detailEnvSection info tr)
      = (if info.Environment ≠ [] then ["ENVIRONMENT:"] else [])
    ∧ countNewlines (detailEnvSection info tr)
      = (if info.Environment ≠ [] then 1 else 0) := by
  unfold detailEnvSection
  by_cases h : info.Environment ≠ []
  · rw [if_pos h, if_pos h, if_pos h]
    constructor
    · unfold sectionTitles
      rw [List.filterMap_append, filterMap_isTitle_map_nil]
      · rfl
      · intro envVar _
        rfl
    · unfold countNewlines
      rw [List.countP_append, countP_isNewline_map_zero]
      · rfl
      · intro envVar _
        rfl
  · rw [if_neg h, if_neg h, if_neg h]
    exact ⟨rfl, rfl⟩

/-- The see also section contributes its title and one blank line
exactly when the related command list is non empty; its content line
starts with the indent and is never a title. -/
theorem sectionTitles_detailSeeAlsoSection (info : CommandInfo) :
    sectionTitles (detailSeeAlsoSection info)
      = (if info.RelatedCommands ≠ [] then ["SEE ALSO:"] else [])
    ∧ countNewlines (detailSeeAlsoSection info)
      = (if info.RelatedCommands ≠ [] then 1 else 0) := by
  unfold detailSeeAlsoSection
  by_cases h : info.RelatedCommands ≠ []
  · rw [if_pos h, if_pos h, if_pos h]
    constructor
    · have hlast : isTitleEvent (UIEvent.text
          (commandIndent ++ String.intercalate (", ") info.RelatedCommands) []) = none := by
        show (if (commandIndent ++ String.intercalate (", ") info.RelatedCommands)
              ∈ sectionTitleList
            then some (commandIndent ++ String.intercalate (", ") info.RelatedCommands)
            else none) = none
        exact if_neg (commandIndent_append_not_title _)
      unfold sectionTitles
      rw [List.filterMap_cons, List.filterMap_cons, List.filterMap_cons, hlast]
      rfl
    · rfl
  · rw [if_neg h, if_neg h, if_neg h]
    exact ⟨rfl, rfl⟩

/-- Claim C8: on the detail page, each of the ALIAS, OPTIONS,
ENVIRONMENT and SEE ALSO sections appears precisely when its own field
is non empty, independently of the other fields, in that fixed order
after NAME and USAGE; and an omitted section contributes no blank line
either, so the blank line count is one (after NAME) plus one per
present optional section. -/
theorem renderCommandDetail_sections (info : CommandInfo) (binaryName : String)
    (tr : String → String) :
    sectionTitles (renderCommandDetail info binaryName tr)
      = ["NAME:", "USAGE:"]
        ++ (if info.Alias ≠ "" then ["ALIAS:"] else [])
        ++ (if info.Flags ≠ [] then ["OPTIONS:"] else [])
        ++ (if info.Environment ≠ [] then ["ENVIRONMENT:"] else [])
        ++ (if info.RelatedCommands ≠ [] then ["SEE ALSO:"] else [])
    ∧ countNewlines (renderCommandDetail info binaryName tr)
      = 1 + (if info.Alias ≠ "" then 1 else 0) + (if info.Flags ≠ [] then 1 else 0)
        + (if info.Environment ≠ [] then 1 else 0)
        + (if info.RelatedCommands ≠ [] then 1 else 0) := by
  unfold renderCommandDetail
  constructor
  · unfold sectionTitles
    rw [List.filterMap_append, List.filterMap_append, List.filterMap_append,
      List.filterMap_append]
    rw [show (detailHead info binaryName tr).filterMap isTitleEvent = ["NAME:", "USAGE:"] from
      (sectionTitles_detailHead info binaryName tr).1]
    rw [show (detailAliasSection info).filterMap isTitleEvent
        = (if info.Alias ≠ "" then ["ALIAS:"] else []) from
      (sectionTitles_detailAliasSection info).1]
    rw [show (detailOptionsSection info tr).filterMap isTitleEvent
        = (if info.Flags ≠ [] then ["OPTIONS:"] else []) from
      (sectionTitles_detailOptionsSection info tr).1]
    rw [show (detailEnvSection info tr).filterMap isTitleEvent
        = (if info.Environment ≠ [] then ["ENVIRONMENT:"] else []) from
      (sectionTitles_detailEnvSection info tr).1]
    rw [show (detailSeeAlsoSection info).filterMap isTitleEvent
        = (if info.RelatedCommands ≠ [] then ["SEE ALSO:"] else []) from
      (sectionTitles_detailSeeAlsoSection info).1]
  · unfold countNewlines
    rw [List.countP_append, List.countP_append, List.countP_append, List.countP_append]
    rw [show (detailHead info binaryName tr).countP isNewlineEvent = 1 from
      (sectionTitles_detailHead info binaryName tr).2]
    rw [show (detailAliasSection info).countP isNewlineEvent
        = (if info.Alias ≠ "" then 1 else 0) from
      (sectionTitles_detailAliasSection info).2]
    rw [show (detailOptionsSection info tr).countP isNewlineEvent
        = (if info.Flags ≠ [] then 1 else 0) from
      (sectionTitles_detailOptionsSection info tr).2]
    rw [show (detailEnvSection info tr).countP isNewlineEvent
        = (if info.Environment ≠ [] then 1 else 0) from
      (sectionTitles_detailEnvSection info tr).2]
    rw [show (detailSeeAlsoSection info).countP isNewlineEvent
        = (if info.RelatedCommands ≠ [] then 1 else 0) from
      (sectionTitles_detailSeeAlsoSection info).2]

/-- Command with flags but no alias used by the C8 witness. -/
def c8Info : CommandInfo :=
  { Name := "push", Description := "Push an app", Usage := "CF_NAME push",
    Alias := "", Flags := [{ Short := "v", Long := "verbose", Description := "loud" }],
    Environment := [], RelatedCommands := ["target"] }

/-- Witness for claim C8 at a command with flags, related commands, but
no alias and no environment: OPTIONS follows USAGE directly with no
ALIAS heading, then SEE ALSO, and the blank line count is three. -/
theorem renderCommandDetail_sections_witness :
    sectionTitles (renderCommandDetail c8Info ("cf") id)
      = ["NAME:", "USAGE:", "OPTIONS:", "SEE ALSO:"]
    ∧ countNewlines (renderCommandDetail c8Info ("cf") id) = 3 := by
  have h := renderCommandDetail_sections c8Info ("cf") id
  rw [h.1, h.2]
  exact ⟨by decide, by decide⟩

/-- traverseOpt threads an Option producing step over a list, failing
when any element fails; it models a Go loop that can panic mid way, in
which case the whole render is modelled as failed. -/
def traverseOpt {α β : Type} (f : α → Option β) : List α → Option (List β)
  | [] => some []
  | a :: l =>
    match f a, traverseOpt f l with
    | some b, some bs => some (b :: bs)
    | _, _ => none

/-- traverseOpt succeeds when every element succeeds. -/
theorem traverseOpt_isSome {α β : Type} (f : α → Option β) (l : List α)
    (h : ∀ a ∈ l, (f a).isSome = true) : (traverseOpt f l).isSome = true := by
  induction l with
  | nil => rfl
  | cons a t ih =>
    have ha := h a (by simp)
    obtain ⟨b, hb⟩ := Option.isSome_iff_exists.mp ha
    have ht := ih (fun x hx => h x (by simp [hx]))
    obtain ⟨bs, hbs⟩ := Option.isSome_iff_exists.mp ht
    unfold traverseOpt
    rw [hb, hbs]
    rfl

/-- Every element of a successfully traversed list contributes its
image to the result. -/
theorem traverseOpt_mem {α β : Type} (f : α → Option β) :
    ∀ (l : List α) (ys : List β), traverseOpt f l = some ys →
      ∀ a ∈ l, ∃ y, f a = some y ∧ y ∈ ys := by
  intro l
  induction l with
  | nil =>
    intro ys _ a ha
    exact absurd ha (List.not_mem_nil a)
  | cons x t ih =>
    intro ys hys a ha
    unfold traverseOpt at hys
    cases hfx : f x with
    | none => rw [hfx] at hys; exact absurd hys (by simp)
    | some b =>
      rw [hfx] at hys
      cases hft : traverseOpt f t with
      | none => rw [hft] at hys; exact absurd hys (by simp)
      | some bs =>
        rw [hft] at hys
        simp only [Option.some.injEq] at hys
        subst hys
        rw [List.mem_cons] at ha
        rcases ha with rfl | ha
        · exact ⟨b, hfx, by simp⟩
        · obtain ⟨y, hy, hmem⟩ := ih bs hft a ha
          exact ⟨y, hy, by simp [hmem]⟩

/-- Modelled from the spec: internal.LongestCommandName is not under
src/; the spec fixes the longest name width as the maximum name length
over the built in command name mapping restricted to the identifiers
referenced by the category lists (the restriction is applied at the
call site below) together with the plugin command list. -/
def LongestCommandName (cmdInfos : List (String × CommandInfo))
    (pluginCommands : List PluginCommand) : Nat :=
  ((cmdInfos.map (fun p => p.1.length))
    ++ (pluginCommands.map (fun pc => pc.Name.length))).foldr max 0

/-- A command identifier is referenced by the category lists when some
row of some category mentions it. -/
def referencedInCategories (categories : List Category) (name : String) : Bool :=
  categories.any (fun cat => cat.CommandList.any (fun row => row.contains name))

/-- The built in catalog restricted to the identifiers actually
referenced by the category lists. -/
def restrictToCategories (cmdInfos : List (String × CommandInfo))
    (categories : List Category) : List (String × CommandInfo) :=
  cmdInfos.filter (fun p => referencedInCategories categories p.1)

/-- The shared row template of the full listing (help_command.go lines
106 and 120). -/
def allRowTemplate : String :=
  allCommandsIndent ++ "\x7b\x7b.CommandName\x7d\x7d\x7b\x7b.Gap\x7d\x7d\x7b\x7b.CommandDescription\x7d\x7d"

/-- allCmdRowEvent embeds one category row entry of displayAllCommands
(help_command.go lines 105 to 112): the rendered name and description
come from the map read with the Go zero value on a miss, while the gap
count subtracts the length of the identifier from the shared width. -/
def allCmdRowEvent (cmdInfos : List (String × CommandInfo)) (tr : String → String)
    (longestCmd : Nat) (command : String) : Option UIEvent :=
  (goRepeatSpaces ((longestCmd : Int) + 1 - (command.length : Int))).map (fun gap =>
    UIEvent.text allRowTemplate
      [("CommandName", ((lookupCI cmdInfos command).getD default).Name),
       ("CommandDescription", tr (((lookupCI cmdInfos command).getD default).Description)),
       ("Gap", gap)])

/-- allPluginRowEvent embeds one plugin row of displayAllCommands
(help_command.go lines 119 to 125); the help text is not translated. -/
def allPluginRowEvent (longestCmd : Nat) (pc : PluginCommand) : Option UIEvent :=
  (goRepeatSpaces ((longestCmd : Int) + 1 - (pc.Name.length : Int))).map (fun gap =>
    UIEvent.text allRowTemplate
      [("CommandName", pc.Name), ("CommandDescription", pc.HelpText), ("Gap", gap)])

/-- One visual category row: its entries followed by a blank line
(help_command.go lines 104 to 114). -/
def allCatRowEvents (cmdInfos : List (String × CommandInfo)) (tr : String → String)
    (longestCmd : Nat) (row : List String) : Option (List UIEvent) :=
  (traverseOpt (allCmdRowEvent cmdInfos tr longestCmd) row).map
    (fun evs => evs ++ [UIEvent.newline])

/-- One category block: its header followed by its rows
(help_command.go lines 101 to 116). -/
def allCatEvents (cmdInfos : List (String × CommandInfo)) (tr : String → String)
    (longestCmd : Nat) (category : Category) : Option (List UIEvent) :=
  (traverseOpt (allCatRowEvents cmdInfos tr longestCmd) category.CommandList).map
    (fun rows => UIEvent.header category.CategoryName :: rows.flatten)

/-- The single shared longest command width of one full listing render
(help_command.go line 99). -/
def allCommandsLongest (cmdInfos : List (String × CommandInfo)) (categories : List Category)
    (plugins : List (String × PluginConfig)) : Nat :=
  LongestCommandName (restrictToCategories cmdInfos categories)
    (getSortedPluginCommands plugins)

/-- displayAllCommands embeds help_command.go lines 96 to 127: the
category blocks in declared order, then the installed plugin commands
header, the plugin rows and a final blank line, all padded with the
single shared longest command width; none models the strings.Repeat
panic on a negative gap count aborting the render. -/
def displayAllCommands (cmdInfos : List (String × CommandInfo)) (categories : List Category)
    (plugins : List (String × PluginConfig)) (tr : String → String) :
    Option (List UIEvent) :=
  match traverseOpt
      (allCatEvents cmdInfos tr (allCommandsLongest cmdInfos categories plugins)) categories,
    traverseOpt
      (allPluginRowEvent (allCommandsLongest cmdInfos categories plugins))
      (getSortedPluginCommands plugins) with
  | some catEvs, some plugEvs =>
    some (catEvs.flatten
      ++ UIEvent.header ("INSTALLED PLUGIN COMMANDS:") :: (plugEvs ++ [UIEvent.newline]))
  | _, _ => none

/-- Mapping over an Option preserves presence. -/
theorem isSome_map {α β : Type} (f : α → β) (o : Option α) :
    (o.map f).isSome = o.isSome := by
  cases o <;> rfl

/-- Every member of a list is bounded by its maximum fold. -/
theorem le_foldr_max (l : List Nat) (a : Nat) (h : a ∈ l) : a ≤ l.foldr max 0 := by
  induction l with
  | nil => exact absurd h (List.not_mem_nil a)
  | cons b t ih =>
    rw [List.mem_cons] at h
    rw [List.foldr_cons]
    rcases h with rfl | h
    · exact le_max_left _ _
    · exact (ih h).trans (le_max_right _ _)

/-- Every key of the catalog handed to LongestCommandName is bounded by
the computed width. -/
theorem key_le_LongestCommandName (m : List (String × CommandInfo))
    (pcs : List PluginCommand) (p : String × CommandInfo) (hp : p ∈ m) :
    p.1.length ≤ LongestCommandName m pcs := by
  apply le_foldr_max
  rw [List.mem_append]
  exact Or.inl (List.mem_map.mpr ⟨p, hp, rfl⟩)

/-- Every plugin command name handed to LongestCommandName is bounded
by the computed width. -/
theorem plugin_le_LongestCommandName (m : List (String × CommandInfo))
    (pcs : List PluginCommand) (pc : PluginCommand) (hpc : pc ∈ pcs) :
    pc.Name.length ≤ LongestCommandName m pcs := by
  apply le_foldr_max
  rw [List.mem_append]
  exact Or.inr (List.mem_map.mpr ⟨pc, hpc, rfl⟩)

/-- A successful catalog lookup exhibits an entry with the looked up
key. -/
theorem lookupCI_isSome_mem (cmdInfos : List (String × CommandInfo)) (c : String)
    (h : (lookupCI cmdInfos c).isSome = true) :
    ∃ p, p ∈ cmdInfos ∧ p.1 = c := by
  unfold lookupCI at h
  cases hfind : cmdInfos.find? (fun p => p.1 == c) with
  | none => rw [hfind] at h; exact absurd h (by simp)
  | some p =>
    refine ⟨p, List.mem_of_find?_eq_some hfind, ?_⟩
    have := List.find?_some hfind
    simpa using this

/-- An identifier mentioned by some category row is referenced. -/
theorem referenced_of_mem (categories : List Category) (cat : Category)
    (row : List String) (c : String) (hcat : cat ∈ categories)
    (hrow : row ∈ cat.CommandList) (hc : c ∈ row) :
    referencedInCategories categories c = true := by
  unfold referencedInCategories
  rw [List.any_eq_true]
  refine ⟨cat, hcat, ?_⟩
  rw [List.any_eq_true]
  exact ⟨row, hrow, by simpa using hc⟩

/-- A referenced identifier present in the catalog is bounded by the
shared width of the full listing. -/
theorem identifier_le_longest (cmdInfos : List (String × CommandInfo))
    (categories : List Category) (pcs : List PluginCommand) (c : String)
    (href : referencedInCategories categories c = true)
    (hsome : (lookupCI cmdInfos c).isSome = true) :
    c.length ≤ LongestCommandName (restrictToCategories cmdInfos categories) pcs := by
  obtain ⟨p, hp, hpc⟩ := lookupCI_isSome_mem cmdInfos c hsome
  have hmem : p ∈ restrictToCategories cmdInfos categories := by
    rw [restrictToCategories, List.mem_filter]
    exact ⟨hp, by rw [hpc]; exact href⟩
  have hb := key_le_LongestCommandName _ pcs p hmem
  rw [hpc] at hb
  exact hb

/-- A category row entry whose identifier fits the shared width renders
to exactly one row event carrying the identifier keyed gap. -/
theorem allCmdRowEvent_eq (cmdInfos : List (String × CommandInfo)) (tr : String → String)
    (longestCmd : Nat) (c : String) (h : c.length ≤ longestCmd) :
    allCmdRowEvent cmdInfos tr longestCmd c = some (UIEvent.text allRowTemplate
      [("CommandName", ((lookupCI cmdInfos c).getD default).Name),
       ("CommandDescription", tr (((lookupCI cmdInfos c).getD default).Description)),
       ("Gap", spaces (longestCmd + 1 - c.length))]) := by
  unfold allCmdRowEvent goRepeatSpaces
  rw [if_neg (by omega : ¬ ((longestCmd : Int) + 1 - (c.length : Int) < 0))]
  have ht : ((longestCmd : Int) + 1 - (c.length : Int)).toNat = longestCmd + 1 - c.length := by
    omega
  rw [Option.map_some', ht]

/-- A plugin row whose name fits the shared width renders to exactly
one row event carrying the name keyed gap. -/
theorem allPluginRowEvent_eq (longestCmd : Nat) (pc : PluginCommand)
    (h : pc.Name.length ≤ longestCmd) :
    allPluginRowEvent longestCmd pc = some (UIEvent.text allRowTemplate
      [("CommandName", pc.Name), ("CommandDescription", pc.HelpText),
       ("Gap", spaces (longestCmd + 1 - pc.Name.length))]) := by
  unfold allPluginRowEvent goRepeatSpaces
  rw [if_neg (by omega : ¬ ((longestCmd : Int) + 1 - (pc.Name.length : Int) < 0))]
  have ht : ((longestCmd : Int) + 1 - (pc.Name.length : Int)).toNat
      = longestCmd + 1 - pc.Name.length := by
    omega
  rw [Option.map_some', ht]

/-- Shared success and emission lemma for the full listing: when every
identifier referenced by the category rows is present in the catalog,
the render succeeds, and every category row entry and every plugin row
is emitted with a gap of the single shared longest width plus one minus
the length of the row identifier respectively the plugin name. -/
theorem displayAllCommands_some_of (cmdInfos : List (String × CommandInfo))
    (categories : List Category) (plugins : List (String × PluginConfig))
    (tr : String → String)
    (H : ∀ cat ∈ categories, ∀ row ∈ cat.CommandList, ∀ c ∈ row,
      (lookupCI cmdInfos c).isSome = true) :
    ∃ evs, displayAllCommands cmdInfos categories plugins tr = some evs
      ∧ (∀ cat ∈ categories, ∀ row ∈ cat.CommandList, ∀ c ∈ row,
          UIEvent.text allRowTemplate
            [("CommandName", ((lookupCI cmdInfos c).getD default).Name),
             ("CommandDescription", tr (((lookupCI cmdInfos c).getD default).Description)),
             ("Gap", spaces (allCommandsLongest cmdInfos categories plugins + 1 - c.length))]
            ∈ evs)
      ∧ (∀ pc ∈ getSortedPluginCommands plugins,
          UIEvent.text allRowTemplate
            [("CommandName", pc.Name), ("CommandDescription", pc.HelpText),
             ("Gap", spaces (allCommandsLongest cmdInfos categories plugins + 1
               - pc.Name.length))] ∈ evs) := by
  have hbound : ∀ cat ∈ categories, ∀ row ∈ cat.CommandList, ∀ c ∈ row,
      c.length ≤ allCommandsLongest cmdInfos categories plugins := by
    intro cat hcat row hrow c hc
    exact identifier_le_longest cmdInfos categories _ c
      (referenced_of_mem categories cat row c hcat hrow hc) (H cat hcat row hrow c hc)
  have hcat_some : (traverseOpt (allCatEvents cmdInfos tr
      (allCommandsLongest cmdInfos categories plugins)) categories).isSome = true := by
    apply traverseOpt_isSome
    intro cat hcat
    unfold allCatEvents
    rw [isSome_map]
    apply traverseOpt_isSome
    intro row hrow
    unfold allCatRowEvents
    rw [isSome_map]
    apply traverseOpt_isSome
    intro c hc
    rw [allCmdRowEvent_eq cmdInfos tr _ c (hbound cat hcat row hrow c hc)]
    rfl
  have hplug_some : (traverseOpt (allPluginRowEvent
      (allCommandsLongest cmdInfos categories plugins))
      (getSortedPluginCommands plugins)).isSome = true := by
    apply traverseOpt_isSome
    intro pc hpc
    have hb : pc.Name.length ≤ allCommandsLongest cmdInfos categories plugins :=
      plugin_le_LongestCommandName (restrictToCategories cmdInfos categories)
        (getSortedPluginCommands plugins) pc hpc
    rw [allPluginRowEvent_eq _ pc hb]
    rfl
  obtain ⟨catEvs, hcats⟩ := Option.isSome_iff_exists.mp hcat_some
  obtain ⟨plugEvs, hplugs⟩ := Option.isSome_iff_exists.mp hplug_some
  refine ⟨catEvs.flatten ++ UIEvent.header ("INSTALLED PLUGIN COMMANDS:")
      :: (plugEvs ++ [UIEvent.newline]), ?_, ?_, ?_⟩
  · unfold displayAllCommands
    rw [hcats, hplugs]
  · intro cat hcat row hrow c hc
    obtain ⟨catEv, hcatEv_eq, hcatEv_mem⟩ :=
      traverseOpt_mem _ categories catEvs hcats cat hcat
    unfold allCatEvents at hcatEv_eq
    cases hrows : traverseOpt (allCatRowEvents cmdInfos tr
        (allCommandsLongest cmdInfos categories plugins)) cat.CommandList with
    | none => rw [hrows] at hcatEv_eq; exact absurd hcatEv_eq (by simp)
    | some rowsEvs =>
      rw [hrows, Option.map_some'] at hcatEv_eq
      have hcatEv := Option.some.inj hcatEv_eq
      obtain ⟨rowEv, hrowEv_eq, hrowEv_mem⟩ :=
        traverseOpt_mem _ cat.CommandList rowsEvs hrows row hrow
      unfold allCatRowEvents at hrowEv_eq
      cases hentries : traverseOpt (allCmdRowEvent cmdInfos tr
          (allCommandsLongest cmdInfos categories plugins)) row with
      | none => rw [hentries] at hrowEv_eq; exact absurd hrowEv_eq (by simp)
      | some entries =>
        rw [hentries, Option.map_some'] at hrowEv_eq
        have hrowEv := Option.some.inj hrowEv_eq
        obtain ⟨e, he_eq, he_mem⟩ := traverseOpt_mem _ row entries hentries c hc
        rw [allCmdRowEvent_eq cmdInfos tr _ c (hbound cat hcat row hrow c hc)] at he_eq
        have he := Option.some.inj he_eq
        rw [List.mem_append]
        left
        rw [List.mem_flatten]
        refine ⟨catEv, hcatEv_mem, ?_⟩
        rw [← hcatEv, List.mem_cons]
        right
        rw [List.mem_flatten]
        refine ⟨rowEv, hrowEv_mem, ?_⟩
        rw [← hrowEv, List.mem_append]
        left
        rw [he]
        exact he_mem
  · intro pc hpc
    obtain ⟨e, he_eq, he_mem⟩ := traverseOpt_mem _ (getSortedPluginCommands plugins)
      plugEvs hplugs pc hpc
    have hb : pc.Name.length ≤ allCommandsLongest cmdInfos categories plugins :=
      plugin_le_LongestCommandName (restrictToCategories cmdInfos categories)
        (getSortedPluginCommands plugins) pc hpc
    rw [allPluginRowEvent_eq _ pc hb] at he_eq
    have he := Option.some.inj he_eq
    rw [List.mem_append]
    right
    rw [List.mem_cons]
    right
    rw [List.mem_append]
    left
    rw [he]
    exact he_mem

/-- Catalog entry whose stored display name xx differs from its map key
x, used against claim C4. -/
def c4Info : CommandInfo :=
  { Name := "xx", Description := "descr", Usage := "", Alias := "", Flags := [],
    Environment := [], RelatedCommands := [] }

/-- Counterexample to claim C4 as stated: the category row for key x
renders the stored name xx but pads with the gap keyed to the one
character identifier, so the emitted gap length does not equal the
shared width plus one minus the length of the rendered entry name. -/
theorem displayAllCommands_gap_not_rendered_name :
    displayAllCommands [("x", c4Info)] [⟨"CAT", [["x"]]⟩] [] id
      = some [UIEvent.header ("CAT"),
          UIEvent.text allRowTemplate
            [("CommandName", "xx"), ("CommandDescription", "descr"), ("Gap", " ")],
          UIEvent.newline,
          UIEvent.header ("INSTALLED PLUGIN COMMANDS:"),
          UIEvent.newline]
    ∧ ¬ ((" ").length
          = allCommandsLongest [("x", c4Info)] [⟨"CAT", [["x"]]⟩] [] + 1
            - ("xx").length) := by
  constructor
  · decide
  · decide

/-- Claim C4 (amended): the shared padding width is the maximum name
length over the union of the built in names referenced by the category
lists and the plugin names, and every rendered row pads with that
single shared width plus one minus the length of the category row
identifier, respectively of the plugin command name. -/
theorem displayAllCommands_shared_padding (cmdInfos : List (String × CommandInfo))
    (categories : List Category) (plugins : List (String × PluginConfig))
    (tr : String → String)
    (H : ∀ cat ∈ categories, ∀ row ∈ cat.CommandList, ∀ c ∈ row,
      (lookupCI cmdInfos c).isSome = true) :
    ∃ evs, displayAllCommands cmdInfos categories plugins tr = some evs
      ∧ (∀ cat ∈ categories, ∀ row ∈ cat.CommandList, ∀ c ∈ row,
          UIEvent.text allRowTemplate
            [("CommandName", ((lookupCI cmdInfos c).getD default).Name),
             ("CommandDescription", tr (((lookupCI cmdInfos c).getD default).Description)),
             ("Gap", spaces (allCommandsLongest cmdInfos categories plugins + 1 - c.length))]
            ∈ evs)
      ∧ (∀ pc ∈ getSortedPluginCommands plugins,
          UIEvent.text allRowTemplate
            [("CommandName", pc.Name), ("CommandDescription", pc.HelpText),
             ("Gap", spaces (allCommandsLongest cmdInfos categories plugins + 1
               - pc.Name.length))] ∈ evs) :=
  displayAllCommands_some_of cmdInfos categories plugins tr H

/-- Witness for claim C4 (amended) at a one command, one plugin
render. -/
theorem displayAllCommands_shared_padding_witness :
    ∃ evs, displayAllCommands [("x", c4Info)] [⟨"CAT", [["x"]]⟩]
        [("pl", ⟨[⟨"zz", "zhelp", "", []⟩]⟩)] id = some evs
      ∧ (∀ cat ∈ [(⟨"CAT", [["x"]]⟩ : Category)], ∀ row ∈ cat.CommandList, ∀ c ∈ row,
          UIEvent.text allRowTemplate
            [("CommandName", ((lookupCI [("x", c4Info)] c).getD default).Name),
             ("CommandDescription", id (((lookupCI [("x", c4Info)] c).getD default).Description)),
             ("Gap", spaces (allCommandsLongest [("x", c4Info)] [⟨"CAT", [["x"]]⟩]
               [("pl", ⟨[⟨"zz", "zhelp", "", []⟩]⟩)] + 1 - c.length))]
            ∈ evs)
      ∧ (∀ pc ∈ getSortedPluginCommands [("pl", ⟨[⟨"zz", "zhelp", "", []⟩]⟩)],
          UIEvent.text allRowTemplate
            [("CommandName", pc.Name), ("CommandDescription", pc.HelpText),
             ("Gap", spaces (allCommandsLongest [("x", c4Info)] [⟨"CAT", [["x"]]⟩]
               [("pl", ⟨[⟨"zz", "zhelp", "", []⟩]⟩)] + 1 - pc.Name.length))] ∈ evs) :=
  displayAllCommands_shared_padding [("x", c4Info)] [⟨"CAT", [["x"]]⟩]
    [("pl", ⟨[⟨"zz", "zhelp", "", []⟩]⟩)] id (by decide)

/-- Counterexample to claim C9 as stated: a category row referencing an
identifier longer than every stored and plugin name and absent from the
store drives the strings.Repeat count negative, and the full listing
render panics. -/
theorem displayAllCommands_panics_on_long_absent_identifier :
    displayAllCommands [("a", default)] [⟨"X", [["longname"]]⟩] [] id = none := by
  decide

/-- Claim C9 (amended): when every identifier referenced by the
category rows is present in the Metadata Store, every gap count of the
full listing is nonnegative and the render never panics. -/
theorem displayAllCommands_no_panic (cmdInfos : List (String × CommandInfo))
    (categories : List Category) (plugins : List (String × PluginConfig))
    (tr : String → String)
    (H : ∀ cat ∈ categories, ∀ row ∈ cat.CommandList, ∀ c ∈ row,
      (lookupCI cmdInfos c).isSome = true) :
    (displayAllCommands cmdInfos categories plugins tr).isSome = true := by
  obtain ⟨evs, hevs, -, -⟩ := displayAllCommands_some_of cmdInfos categories plugins tr H
  rw [hevs]
  rfl

/-- Witness for claim C9 (amended): with the referenced identifier
present in the store the render succeeds. -/
theorem displayAllCommands_no_panic_witness :
    (displayAllCommands [("a", default)] [⟨"X", [["a"]]⟩] [] id).isSome = true :=
  displayAllCommands_no_panic [("a", default)] [⟨"X", [["a"]]⟩] [] id (by decide)

/-- Counterexample to claim C5 as stated: in the full listing an
identifier absent from the store is not skipped; it still contributes a
rendered row, built from the Go zero value CommandInfo, with an empty
name and description. -/
theorem displayAllCommands_renders_absent_identifier :
    displayAllCommands [] [⟨"X", [["a"]]⟩] [] id
      = some [UIEvent.header ("X"),
          UIEvent.text allRowTemplate
            [("CommandName", ""), ("CommandDescription", ""), ("Gap", "")],
          UIEvent.newline,
          UIEvent.header ("INSTALLED PLUGIN COMMANDS:"),
          UIEvent.newline]
    ∧ UIEvent.text allRowTemplate
        [("CommandName", ""), ("CommandDescription", ""), ("Gap", "")]
        ∈ [UIEvent.header ("X"),
          UIEvent.text allRowTemplate
            [("CommandName", ""), ("CommandDescription", ""), ("Gap", "")],
          UIEvent.newline,
          UIEvent.header ("INSTALLED PLUGIN COMMANDS:"),
          UIEvent.newline] := by
  constructor
  · decide
  · decide

/-- commonRowEntries embeds the inner loop of displayCommonCommands
(help_command.go lines 162 to 172): identifiers found in the store
append their Name, a comma separator exactly when an alias exists, and
the alias; identifiers absent from the store are skipped. -/
def commonRowEntries (cmdInfos : List (String × CommandInfo)) (row : List String) :
    List String :=
  row.foldl (fun finalRow command =>
    match lookupCI cmdInfos command with
    | some info =>
      finalRow ++ [info.Name ++ (if info.Alias.length > 0 then "," else "") ++ info.Alias]
    | none => finalRow) []

/-- commonCategoryTable embeds the table accumulation of
displayCommonCommands (help_command.go lines 159 to 175). -/
def commonCategoryTable (cmdInfos : List (String × CommandInfo)) (category : Category) :
    List (List String) :=
  category.CommandList.foldl (fun table row => table ++ [commonRowEntries cmdInfos row]) []

/-- globalOptionsTableData embeds help_command.go lines 300 to 305. -/
def globalOptionsTableData (tr : String → String) : List (List String) :=
  [["--help, -h", tr ("Show help")],
   ["-v", tr ("Print API request diagnostics to stdout")]]

/-- environmentalVariablesTableData embeds help_command.go lines 288 to
298. -/
def environmentalVariablesTableData (tr : String → String) : List (List String) :=
  [["CF_COLOR=false", tr ("Do not colorize output")],
   ["CF_DIAL_TIMEOUT=5",
    tr ("Max wait time to establish a connection, including name resolution, in seconds")],
   ["CF_HOME=path/to/dir/", tr ("Override path to default config directory")],
   ["CF_PLUGIN_HOME=path/to/dir/", tr ("Override path to default plugin config directory")],
   ["CF_TRACE=true", tr ("Print API request diagnostics to stdout")],
   ["CF_TRACE=path/to/trace.log", tr ("Append API request diagnostics to a log file")],
   ["https_proxy=proxy.example.com:8080", tr ("Enable HTTP proxying for API requests")]]

/-- displayCommonCommands embeds help_command.go lines 139 to 205: the
banner and usage lines, one header plus table plus blank line per
common category, the plugin three column block, the global options and
the two fixed trailer lines. -/
def displayCommonCommands (cmdInfos : List (String × CommandInfo))
    (commonCats : List Category) (plugins : List (String × PluginConfig))
    (binaryName binaryVersion : String) (tr : String → String) : List UIEvent :=
  [UIEvent.text
     ("\x7b\x7b.CommandName\x7d\x7d \x7b\x7b.VersionCommand\x7d\x7d \x7b\x7b.Version\x7d\x7d, \x7b\x7b.CLI\x7d\x7d")
     [("CommandName", binaryName), ("VersionCommand", tr ("version")),
      ("Version", binaryVersion), ("CLI", tr ("Cloud Foundry command line tool"))],
   UIEvent.text ("\x7b\x7b.Usage\x7d\x7d \x7b\x7b.CommandName\x7d\x7d \x7b\x7b.CommandUsage\x7d\x7d")
     [("Usage", tr ("Usage:")), ("CommandName", binaryName),
      ("CommandUsage", tr ("[global options] command [arguments...] [command options]"))],
   UIEvent.newline]
  ++ commonCats.flatMap (fun category =>
      [UIEvent.header category.CategoryName,
       UIEvent.table commonCommandsIndent (commonCategoryTable cmdInfos category) 4,
       UIEvent.newline])
  ++ [UIEvent.header ("Commands offered by installed plugins:"),
      UIEvent.table commonCommandsIndent
        (commonPluginTable (getSortedPluginCommands plugins)) 4,
      UIEvent.newline,
      UIEvent.header ("Global options:"),
      UIEvent.table commonCommandsIndent (globalOptionsTableData tr) 25,
      UIEvent.newline,
      UIEvent.text
        ("These are commonly used commands. Use \x27cf help -a\x27 to see all, with descriptions.")
        [],
      UIEvent.text ("See \x27cf help <command>\x27 to read about a specific command.") []]

/-- Accumulating one element per step from the left is mapping. -/
theorem foldl_append_map {α β : Type} (f : α → β) (l : List α) :
    ∀ init : List β, l.foldl (fun acc a => acc ++ [f a]) init = init ++ l.map f := by
  induction l with
  | nil => intro init; simp
  | cons a t ih =>
    intro init
    rw [List.foldl_cons, ih (init ++ [f a]), List.map_cons]
    simp

/-- The skip loop of commonRowEntries is lookup then filterMap. -/
theorem commonRowEntries_eq_filterMap (cmdInfos : List (String × CommandInfo)) :
    ∀ (row : List String) (init : List String),
      row.foldl (fun finalRow command =>
        match lookupCI cmdInfos command with
        | some info =>
          finalRow
            ++ [info.Name ++ (if info.Alias.length > 0 then "," else "") ++ info.Alias]
        | none => finalRow) init
      = init ++ row.filterMap (fun c => (lookupCI cmdInfos c).map (fun info =>
          info.Name ++ (if info.Alias.length > 0 then "," else "") ++ info.Alias)) := by
  intro row
  induction row with
  | nil => intro init; simp
  | cons c t ih =>
    intro init
    rw [List.foldl_cons, List.filterMap_cons]
    cases hc : lookupCI cmdInfos c with
    | none =>
      rw [ih init]
      rfl
    | some info =>
      rw [Option.map_some', ih _]
      simp

/-- The category table is the row wise image of the skip loop. -/
theorem commonCategoryTable_eq_map (cmdInfos : List (String × CommandInfo))
    (category : Category) :
    commonCategoryTable cmdInfos category
      = category.CommandList.map (commonRowEntries cmdInfos) := by
  unfold commonCategoryTable
  rw [foldl_append_map (commonRowEntries cmdInfos) category.CommandList []]
  rfl

/-- Claim C5 (amended): in the common commands summary an identifier
absent from the Metadata Store is silently skipped, never an error, and
each surviving entry is Name, or Name comma Alias when an alias exists;
each category emits exactly its lookup with skip table.  In the full
listing an absent identifier instead still contributes a rendered zero
value row, shown by the counterexample. -/
theorem commonCommands_lookup_with_skip (cmdInfos : List (String × CommandInfo))
    (commonCats : List Category) (plugins : List (String × PluginConfig))
    (binaryName binaryVersion : String) (tr : String → String) :
    (∀ row : List String, commonRowEntries cmdInfos row
        = row.filterMap (fun c => (lookupCI cmdInfos c).map (fun info =>
            info.Name ++ (if info.Alias.length > 0 then "," else "") ++ info.Alias)))
    ∧ (∀ cat ∈ commonCats,
        UIEvent.table commonCommandsIndent
          (cat.CommandList.map (commonRowEntries cmdInfos)) 4
          ∈ displayCommonCommands cmdInfos commonCats plugins binaryName binaryVersion tr)
    := by
  constructor
  · intro row
    unfold commonRowEntries
    rw [commonRowEntries_eq_filterMap cmdInfos row []]
    rfl
  · intro cat hcat
    rw [← commonCategoryTable_eq_map cmdInfos cat]
    unfold displayCommonCommands
    rw [List.mem_append]
    left
    rw [List.mem_append]
    right
    rw [List.mem_flatMap]
    refine ⟨cat, hcat, ?_⟩
    simp

/-- Store entry with an alias used by the C5 witness. -/
def c5Info : CommandInfo :=
  { Name := "known", Description := "", Usage := "", Alias := "k", Flags := [],
    Environment := [], RelatedCommands := [] }

/-- Witness for claim C5 (amended) at a row holding one known and one
missing identifier. -/
theorem commonCommands_lookup_with_skip_witness :
    (∀ row : List String, commonRowEntries [("known", c5Info)] row
        = row.filterMap (fun c => (lookupCI [("known", c5Info)] c).map (fun info =>
            info.Name ++ (if info.Alias.length > 0 then "," else "") ++ info.Alias)))
    ∧ (∀ cat ∈ [(⟨"K", [["known", "missing"]]⟩ : Category)],
        UIEvent.table commonCommandsIndent
          (cat.CommandList.map (commonRowEntries [("known", c5Info)])) 4
          ∈ displayCommonCommands [("known", c5Info)] [⟨"K", [["known", "missing"]]⟩]
              [] ("cf") ("1.0") id) :=
  commonCommands_lookup_with_skip [("known", c5Info)] [⟨"K", [["known", "missing"]]⟩]
    [] ("cf") ("1.0") id

/-- displayHelpPreamble embeds help_command.go lines 74 to 94. -/
def displayHelpPreamble (binaryName binaryVersion : String) (tr : String → String) :
    List UIEvent :=
  [UIEvent.header ("NAME:"),
   UIEvent.text (allCommandsIndent ++ "\x7b\x7b.CommandName\x7d\x7d - \x7b\x7b.CommandDescription\x7d\x7d")
     [("CommandName", binaryName),
      ("CommandDescription", tr ("A command line tool to interact with Cloud Foundry"))],
   UIEvent.newline,
   UIEvent.header ("USAGE:"),
   UIEvent.text (allCommandsIndent ++ "\x7b\x7b.CommandName\x7d\x7d \x7b\x7b.CommandUsage\x7d\x7d")
     [("CommandName", binaryName),
      ("CommandUsage", tr ("[global options] command [arguments...] [command options]"))],
   UIEvent.newline,
   UIEvent.header ("VERSION:"),
   UIEvent.text (allCommandsIndent ++ binaryVersion) [],
   UIEvent.newline]

/-- displayHelpFooter embeds help_command.go lines 129 to 137. -/
def displayHelpFooter (tr : String → String) : List UIEvent :=
  [UIEvent.header ("ENVIRONMENT VARIABLES:"),
   UIEvent.table allCommandsIndent (environmentalVariablesTableData tr) 1,
   UIEvent.newline,
   UIEvent.header ("GLOBAL OPTIONS:"),
   UIEvent.table allCommandsIndent (globalOptionsTableData tr) 25]

/-- displayFullHelp embeds help_command.go lines 64 to 72: the all
commands flag selects the preamble, full listing and footer, otherwise
the common commands summary; none propagates the full listing panic. -/
def displayFullHelp (allCommands : Bool) (cmdInfos : List (String × CommandInfo))
    (commonCats allCats : List Category) (plugins : List (String × PluginConfig))
    (binaryName binaryVersion : String) (tr : String → String) : Option (List UIEvent) :=
  if allCommands then
    match displayAllCommands cmdInfos allCats plugins tr with
    | some evs =>
      some (displayHelpPreamble binaryName binaryVersion tr ++ evs ++ displayHelpFooter tr)
    | none => none
  else
    some (displayCommonCommands cmdInfos commonCats plugins binaryName binaryVersion tr)

/-- Execute embeds help_command.go lines 53 to 62: dispatch solely on
whether the positional command name is empty; the empty name renders
the no error full help, a non empty name renders the single command
detail page.  The pair holds the returned error and the emitted
output, none output modelling the full listing panic. -/
def Execute (commandName : String) (allCommands : Bool)
    (lookupByName : String → Except StoreErr CommandInfo)
    (cmdInfos : List (String × CommandInfo)) (commonCats allCats : List Category)
    (plugins : List (String × PluginConfig)) (binaryName binaryVersion : String)
    (tr : String → String) : Option StoreErr × Option (List UIEvent) :=
  if commandName = "" then
    (none, displayFullHelp allCommands cmdInfos commonCats allCats plugins
      binaryName binaryVersion tr)
  else
    ((displayCommand lookupByName plugins commandName binaryName tr).1,
     some (displayCommand lookupByName plugins commandName binaryName tr).2)

/-- Claim C10: with a non empty positional command name, Execute
renders the single command detail page and the result does not mention
the all commands flag at all, so supplying the flag together with a
name leaves the flag ignored; AllCommands is consulted only in the
empty name branch. -/
theorem execute_ignores_all_flag (commandName : String) (h : commandName ≠ "")
    (allCommands : Bool) (lookupByName : String → Except StoreErr CommandInfo)
    (cmdInfos : List (String × CommandInfo)) (commonCats allCats : List Category)
    (plugins : List (String × PluginConfig)) (binaryName binaryVersion : String)
    (tr : String → String) :
    Execute commandName allCommands lookupByName cmdInfos commonCats allCats plugins
        binaryName binaryVersion tr
      = ((displayCommand lookupByName plugins commandName binaryName tr).1,
         some (displayCommand lookupByName plugins commandName binaryName tr).2) := by
  unfold Execute
  rw [if_neg h]

/-- Witness for claim C10: with the name push the results with and
without the all commands flag coincide. -/
theorem execute_ignores_all_flag_witness :
    Execute ("push") true c6Store [] [] [] [] ("cf") ("1.0") id
      = Execute ("push") false c6Store [] [] [] [] ("cf") ("1.0") id :=
  (execute_ignores_all_flag ("push") (by decide) true c6Store [] [] [] [] ("cf") ("1.0")
      id).trans
    (execute_ignores_all_flag ("push") (by decide) false c6Store [] [] [] [] ("cf") ("1.0")
      id).symm
